import Mathlib

/-!
Shallow embedding of the utility module t1dgrs2/common.py.

The module wraps operating-system primitives (subprocess execution, a
directory walk with file removal, file opening and reading, a delimited
table loader) in functions that log a debug trace on entry and, on a
caught failure, log the error together with a fixed advisory message and
re-raise the failure.

Modelling conventions:
  - A Python exception is a value of the inductive type PyErr; a function
    that can raise returns an Except PyErr value.
  - Log output is modelled as a list of LogEntry values produced by the
    call, returned alongside the result.
  - The operating system environment (shell, filesystem) is passed in
    explicitly: shell execution as an oracle of type ShellEnv, the
    filesystem as a FileSys value.
  - Machine strings are Lean String values; file bytes are List Nat.
-/

/-- Python whitespace characters relevant to str.strip, restricted to the
ASCII range that the shell output model uses. -/
def isPySpace (c : Char) : Bool :=
  c = ' ' || c = '\t' || c = '\n' || c = '\r' || c = '\x0b' || c = '\x0c'

/-- Model of the Python str.strip method: drop leading and trailing
whitespace characters. -/
def pyStrip (s : String) : String :=
  ⟨((s.data.dropWhile isPySpace).reverse.dropWhile isPySpace).reverse⟩

/-- The first list is an initial segment of the second (model of the
character-level matching that the Python in operator performs at one
position). -/
def leadsWith : List Char → List Char → Bool
  | [], _ => true
  | _ :: _, [] => false
  | a :: as, b :: bs => a == b && leadsWith as bs

/-- Model of the Python expression pat in s on strings: pat occurs as a
contiguous substring of s. -/
def occursIn (pat : List Char) : List Char → Bool
  | [] => leadsWith pat []
  | c :: rest => leadsWith pat (c :: rest) || occursIn pat rest

/-- String-level wrapper for occursIn. -/
def strContains (pat s : String) : Bool :=
  occursIn pat.data s.data

/-- Modelled from the spec: _EXIT_MSG is a fixed human-readable advisory
message imported from the package root (its source file is not part of
this repository snapshot); its exact text is irrelevant to every claim. -/
def _EXIT_MSG : String := "Run failed, exiting."

/-- Python exception values distinguished by the embedded functions. -/
inductive PyErr where
  | calledProcessError (code : Int) (stderr : String)
  | timeoutExpired (cmd : String)
  | fileNotFoundError (path : String)
  | isADirectoryError (path : String)
  | oserror (path : String)
  | permissionError (path : String)
  | unicodeDecodeError (path : String)
  | assertionError (msg : String)
  | valueError (msg : String)
  deriving DecidableEq, Repr

/-- Rendering of an exception to the string the logger records for it. -/
def pyStr : PyErr → String
  | .calledProcessError code stderr =>
      "CalledProcessError " ++ toString code ++ ": " ++ stderr
  | .timeoutExpired cmd => "TimeoutExpired: " ++ cmd
  | .fileNotFoundError path => "FileNotFoundError: " ++ path
  | .isADirectoryError path => "IsADirectoryError: " ++ path
  | .oserror path => "OSError: " ++ path
  | .permissionError path => "PermissionError: " ++ path
  | .unicodeDecodeError path => "UnicodeDecodeError: " ++ path
  | .assertionError msg => "AssertionError: " ++ msg
  | .valueError msg => "ValueError: " ++ msg

/-- One record emitted to the module logger. -/
inductive LogEntry where
  | debug (msg : String)
  | info (msg : String)
  | exceptionLog (msg : String)
  | errorLog (msg : String)
  deriving DecidableEq, Repr

/-- Outcome of running one shell command: completion with an exit code,
captured standard output and standard error within the 300 second
timeout, or expiry of that timeout. -/
inductive ExecOutcome where
  | completed (exitCode : Int) (stdout stderr : String)
  | timedOut
  deriving DecidableEq, Repr

/-- The shell environment: what executing each command string would do. -/
def ShellEnv : Type := String → ExecOutcome

/-- Embedding of run_shell_cmd: log a debug trace, run the command with
check=True and timeout=300.  On exit code 0 return stdout stripped; on a
non-zero exit code subprocess.run raises CalledProcessError, which is
caught, logged (the captured stderr, then the fixed advisory) and
re-raised; on timeout subprocess.run raises TimeoutExpired, which no
handler in the function catches, so it propagates unlogged. -/
def run_shell_cmd (env : ShellEnv) (cmd : String) :
    Except PyErr String × List LogEntry :=
  let log0 := [LogEntry.debug ("Executing: run_shell_cmd(cmd=" ++ cmd ++ ")")]
  match env cmd with
  | .completed code out err =>
      if code = 0 then
        (.ok (pyStrip out), log0)
      else
        (.error (.calledProcessError code err),
         log0 ++ [LogEntry.exceptionLog err, LogEntry.errorLog _EXIT_MSG])
  | .timedOut => (.error (.timeoutExpired cmd), log0)

/-- A filesystem node that a path can name besides a directory: a regular
file with byte contents (what os.path.isfile reports true for), or a
special entry such as a socket or dangling symlink. -/
inductive Node where
  | file (contents : List Nat)
  | special
  deriving DecidableEq, Repr

/-- Whether a node is a regular file. -/
def Node.isRegular : Node → Bool
  | .file _ => true
  | .special => false

/-- The filesystem: the set of existing directories, the non-directory
entries keyed by canonical path, the os.path.realpath resolution map, the
set of paths whose removal raises PermissionError, and the set of paths
whose opening raises PermissionError (no read permission). -/
structure FileSys where
  dirs : List String
  entries : List (String × Node)
  resolve : String → String
  locked : List String
  unreadable : List String

/-- Open a path for reading (after realpath resolution): a regular file
yields its bytes unless read permission is missing (PermissionError), a
directory raises IsADirectoryError, a special entry raises OSError, a
missing path raises FileNotFoundError. -/
def FileSys.openBytes (fs : FileSys) (path : String) : Except PyErr (List Nat) :=
  match fs.entries.lookup path with
  | some (.file contents) =>
      if fs.unreadable.contains path then .error (.permissionError path)
      else .ok contents
  | some .special => .error (.oserror path)
  | none =>
      if fs.dirs.contains path then .error (.isADirectoryError path)
      else .error (.fileNotFoundError path)

/-- A UTF-8 continuation byte, in the range 0x80 to 0xBF. -/
def isUtf8Cont (b : Nat) : Bool :=
  decide (0x80 ≤ b ∧ b ≤ 0xBF)

/-- Whether a byte sequence is valid UTF-8 (RFC 3629: no overlong forms,
no surrogate code points, nothing above U+10FFFF).  Decoding the text
read by readline raises UnicodeDecodeError exactly when this fails. -/
def utf8Decodable : List Nat → Bool
  | [] => true
  | b :: rest =>
      if b ≤ 0x7F then utf8Decodable rest
      else if 0xC2 ≤ b ∧ b ≤ 0xDF then
        match rest with
        | c1 :: rest2 => isUtf8Cont c1 && utf8Decodable rest2
        | [] => false
      else if b = 0xE0 then
        match rest with
        | c1 :: c2 :: rest2 =>
            decide (0xA0 ≤ c1 ∧ c1 ≤ 0xBF) && isUtf8Cont c2 &&
              utf8Decodable rest2
        | _ => false
      else if 0xE1 ≤ b ∧ b ≤ 0xEC then
        match rest with
        | c1 :: c2 :: rest2 =>
            isUtf8Cont c1 && isUtf8Cont c2 && utf8Decodable rest2
        | _ => false
      else if b = 0xED then
        match rest with
        | c1 :: c2 :: rest2 =>
            decide (0x80 ≤ c1 ∧ c1 ≤ 0x9F) && isUtf8Cont c2 &&
              utf8Decodable rest2
        | _ => false
      else if 0xEE ≤ b ∧ b ≤ 0xEF then
        match rest with
        | c1 :: c2 :: rest2 =>
            isUtf8Cont c1 && isUtf8Cont c2 && utf8Decodable rest2
        | _ => false
      else if b = 0xF0 then
        match rest with
        | c1 :: c2 :: c3 :: rest2 =>
            decide (0x90 ≤ c1 ∧ c1 ≤ 0xBF) && isUtf8Cont c2 &&
              isUtf8Cont c3 && utf8Decodable rest2
        | _ => false
      else if 0xF1 ≤ b ∧ b ≤ 0xF3 then
        match rest with
        | c1 :: c2 :: c3 :: rest2 =>
            isUtf8Cont c1 && isUtf8Cont c2 && isUtf8Cont c3 &&
              utf8Decodable rest2
        | _ => false
      else if b = 0xF4 then
        match rest with
        | c1 :: c2 :: c3 :: rest2 =>
            decide (0x80 ≤ c1 ∧ c1 ≤ 0x8F) && isUtf8Cont c2 &&
              isUtf8Cont c3 && utf8Decodable rest2
        | _ => false
      else false

/-- Embedding of validate_textfile: log a debug trace, resolve the path
with realpath, open it as UTF-8 text (raising PermissionError on an
unreadable file) and read one line: readline decodes the buffered chunk
holding that line, raising UnicodeDecodeError on invalid UTF-8 (the
model takes the chunk to be the file contents), and returns the empty
string at end of file without raising, so a zero-byte file passes.  On
success an info record is logged and the canonical path returned; any
failure while opening or reading is caught, logged with the advisory and
re-raised. -/
def validate_textfile (fs : FileSys) (arg : String) :
    Except PyErr String × List LogEntry :=
  let log0 := [LogEntry.debug ("Executing: validate_textfile(arg=" ++ arg ++ ")")]
  let file := fs.resolve arg
  match fs.openBytes file with
  | .ok contents =>
      if utf8Decodable contents then
        (.ok file, log0 ++ [LogEntry.info ("File found: " ++ file)])
      else
        let e := PyErr.unicodeDecodeError file
        (.error e,
         log0 ++ [LogEntry.exceptionLog (pyStr e), LogEntry.errorLog _EXIT_MSG])
  | .error e =>
      (.error e,
       log0 ++ [LogEntry.exceptionLog (pyStr e), LogEntry.errorLog _EXIT_MSG])

/-- The PLINK .bed magic number. -/
def bedMagicNum : List Nat := [108, 27, 1]

/-- Fuelled scan for pyReplace: at each position, a match of the
non-empty needle is replaced and skipped, otherwise one character is
kept; the fuel only bounds the recursion and any fuel at least the
length of the list is enough. -/
def pyReplaceAux (pat rep : List Char) : Nat → List Char → List Char
  | _, [] => []
  | 0, l => l
  | fuel + 1, c :: rest =>
      if pat ≠ [] && leadsWith pat (c :: rest) then
        rep ++ pyReplaceAux pat rep fuel (List.drop (pat.length - 1) rest)
      else c :: pyReplaceAux pat rep fuel rest

/-- Model of the Python str.replace method: replace every non-overlapping
occurrence of pat in s, scanning left to right. -/
def pyReplace (s pat rep : String) : String :=
  ⟨pyReplaceAux pat.data rep.data s.data.length s.data⟩

/-- Embedding of validate_plinkfiles: log a debug trace, resolve
arg.bed with realpath and open it in binary mode, read its first three
bytes and assert they equal the magic number (a shorter file fails the
same assertion), log an info record, validate arg.bim and arg.fam as
text files, and return the canonical .bed path with every occurrence of
the substring .bed removed (the Python str.replace call replaces all
occurrences, not only a trailing extension).  Any failure, including one
re-raised by the nested text validations, is caught, logged with the
advisory and re-raised. -/
def validate_plinkfiles (fs : FileSys) (arg : String) :
    Except PyErr String × List LogEntry :=
  let log0 := [LogEntry.debug ("Executing: validate_plinkfiles(arg=" ++ arg ++ ")")]
  let bed := fs.resolve (arg ++ ".bed")
  match fs.openBytes bed with
  | .error e =>
      (.error e,
       log0 ++ [LogEntry.exceptionLog (pyStr e), LogEntry.errorLog _EXIT_MSG])
  | .ok bytes =>
      if bytes.take 3 = bedMagicNum then
        let logBed := [LogEntry.info ("File found: " ++ bed)]
        match validate_textfile fs (arg ++ ".bim") with
        | (.error e, logBim) =>
            (.error e,
             log0 ++ logBed ++ logBim ++
               [LogEntry.exceptionLog (pyStr e), LogEntry.errorLog _EXIT_MSG])
        | (.ok _, logBim) =>
            match validate_textfile fs (arg ++ ".fam") with
            | (.error e, logFam) =>
                (.error e,
                 log0 ++ logBed ++ logBim ++ logFam ++
                   [LogEntry.exceptionLog (pyStr e), LogEntry.errorLog _EXIT_MSG])
            | (.ok _, logFam) =>
                (.ok (pyReplace bed (".bed") ""),
                 log0 ++ logBed ++ logBim ++ logFam)
      else
        let e := PyErr.assertionError ("File " ++ bed ++ " is not a PLINK .bed file.")
        (.error e,
         log0 ++ [LogEntry.exceptionLog (pyStr e), LogEntry.errorLog _EXIT_MSG])

/-- Whether a non-directory path lies inside the tree rooted at dirpath:
its full joined path extends the root followed by the path separator. -/
def underPath (dirpath path : String) : Bool :=
  leadsWith (dirpath ++ "/").data path.data

/-- Model of os.walk followed by os.path.join: the full paths (with their
nodes) of the non-directory entries below dirpath, in entry-list order.
On a path that is not an existing directory, os.walk yields nothing (its
default onerror handler swallows the listing error). -/
def FileSys.walk (fs : FileSys) (dirpath : String) : List (String × Node) :=
  if fs.dirs.contains dirpath then
    fs.entries.filter (fun e => underPath dirpath e.1)
  else []

/-- The body of the deletion loop for one joined path: os.path.isfile
must hold, and then either no pattern was given or the pattern occurs in
the full path. -/
def shouldDelete (pat : Option String) (path : String) (node : Node) : Bool :=
  node.isRegular &&
    (match pat with
     | none => true
     | some q => strContains q path)

/-- Run the deletion loop over the walked entries in order: each entry
that shouldDelete selects is removed with os.remove, which raises
PermissionError on a locked path; the loop stops at the first failure and
keeps the removals already performed (no rollback). Returns the removed
paths and the failure, if one occurred. -/
def removeLoop (locked : List String) (pat : Option String) :
    List (String × Node) → List String × Option PyErr
  | [] => ([], none)
  | (path, node) :: rest =>
      if shouldDelete pat path node then
        if locked.contains path then ([], some (.permissionError path))
        else
          let (removed, err) := removeLoop locked pat rest
          (path :: removed, err)
      else removeLoop locked pat rest

/-- Result of one delete_files_within call: the raised-or-normal outcome,
the log, the filesystem afterwards, and the paths that os.remove was
called on (successfully). -/
structure DelResult where
  result : Except PyErr Unit
  log : List LogEntry
  fs : FileSys
  removed : List String

/-- Textual form of the optional pattern used in the debug trace. -/
def patRepr : Option String → String
  | none => "None"
  | some q => q

/-- Embedding of delete_files_within: log a debug trace, walk the tree
below dirpath and remove every regular file the optional pattern selects
(all of them when the pattern is None, those whose full joined path
contains it as a substring otherwise).  An exception during the loop is
caught, logged with the advisory and re-raised; removals already done are
kept. -/
def delete_files_within (fs : FileSys) (dirpath : String)
    (pat : Option String) : DelResult :=
  let log0 := [LogEntry.debug
    ("Executing: delete_files_within(path=" ++ dirpath ++
      ", pattern=" ++ patRepr pat ++ ")")]
  let (removed, err) := removeLoop fs.locked pat (fs.walk dirpath)
  let fs2 : FileSys :=
    { fs with entries := fs.entries.filter (fun e => !(removed.contains e.1)) }
  match err with
  | none => ⟨.ok (), log0, fs2, removed⟩
  | some e =>
      ⟨.error e,
       log0 ++ [LogEntry.exceptionLog (pyStr e), LogEntry.errorLog _EXIT_MSG],
       fs2, removed⟩

/-- Column data types expressible in the dtype mapping of the loader. -/
inductive PyType where
  | pystr
  | pyint
  deriving DecidableEq, Repr

/-- A cell value of a loaded table. -/
inductive Value where
  | vstr (s : String)
  | vint (n : Int)
  deriving DecidableEq, Repr

/-- Whether a value has a given data type. -/
def Value.hasType : Value → PyType → Bool
  | .vstr _, .pystr => true
  | .vint _, .pyint => true
  | _, _ => false

/-- Value of one decimal digit character. -/
def digitVal (c : Char) : Option Nat :=
  if '0' ≤ c ∧ c ≤ '9' then some (c.toNat - 48) else none

/-- Accumulate a decimal number over digit characters, failing on any
non-digit. -/
def parseDigitsAux : List Char → Nat → Option Nat
  | [], acc => some acc
  | c :: rest, acc =>
      match digitVal c with
      | some d => parseDigitsAux rest (acc * 10 + d)
      | none => none

/-- Parse a non-empty all-digit character list as a number. -/
def parseDigits : List Char → Option Nat
  | [] => none
  | c :: rest => parseDigitsAux (c :: rest) 0

/-- Model of integer-literal parsing (the int coercion of the loader):
an optional sign followed by at least one decimal digit. -/
def pyInt (s : String) : Option Int :=
  match s.data with
  | '-' :: rest => (parseDigits rest).map (fun n => -(n : Int))
  | '+' :: rest => (parseDigits rest).map (fun n => (n : Int))
  | l => (parseDigits l).map (fun n => (n : Int))

/-- Coerce one raw cell to a column data type; an integer column fails
with ValueError on a cell that is not an integer literal. -/
def coerce (t : PyType) (cell : String) : Except PyErr Value :=
  match t with
  | .pystr => .ok (.vstr cell)
  | .pyint =>
      match pyInt cell with
      | some n => .ok (.vint n)
      | none => .error (.valueError ("invalid literal for int: " ++ cell))

/-- Sequential effectful map over a list, stopping at the first failure
(the evaluation order of the loader). -/
def mapE (g : α → Except ε β) : List α → Except ε (List β)
  | [] => .ok []
  | a :: l =>
      match g a with
      | .error e => .error e
      | .ok b =>
          match mapE g l with
          | .error e => .error e
          | .ok bs => .ok (b :: bs)

/-- A delimited text file already tokenised into a header row and data
rows (the pandas tokeniser applied to the file text and separator). -/
structure CsvFile where
  header : List String
  rows : List (List String)
  deriving DecidableEq, Repr

/-- The data type the dtype mapping assigns a column, defaulting to the
string type pandas infers for untyped text in this model. -/
def colType (dtype : Option (List (String × PyType))) (c : String) : PyType :=
  match dtype with
  | none => .pystr
  | some m =>
      match m.lookup c with
      | some t => t
      | none => .pystr

/-- Zero-based position of a column name in the header. -/
def indexIn (c : String) : List String → Nat
  | [] => 0
  | h :: t => if h = c then 0 else indexIn c t + 1

/-- A loaded table: each requested column paired with its values. -/
abbrev Frame : Type := List (String × List Value)

/-- Load one requested column: name it and coerce the cell at its header
position in every row to the data type assigned to it. -/
def buildCol (f : CsvFile) (dtype : Option (List (String × PyType)))
    (c : String) : Except PyErr (String × List Value) :=
  match mapE (fun r => coerce (colType dtype c) (r.getD (indexIn c f.header) ""))
      f.rows with
  | .error e => .error e
  | .ok vs => .ok (c, vs)

/-- Model of pandas.read_csv with the usecols and dtype keyword
arguments: every requested column must occur in the header, otherwise the
parser raises ValueError; the result keeps exactly the requested columns
in file order, with each cell coerced to the dtype assigned to its
column. -/
def read_csv (f : CsvFile) (usecols : List String)
    (dtype : Option (List (String × PyType))) : Except PyErr Frame :=
  if usecols.all (fun c => f.header.contains c) then
    mapE (buildCol f dtype) (f.header.filter (fun c => usecols.contains c))
  else
    .error (.valueError ("Usecols do not match columns, columns expected but not found"))

/-- The delimited files reachable from the loader, keyed by path and
already tokenised with the separator that read_dataframe passes through
unchanged to the parser. -/
def CsvEnv : Type := String → Option CsvFile

/-- Embedding of read_dataframe: log a debug trace, call the parser on
the file with the given separator, requested columns and optional dtype
mapping, and return the frame.  A parser failure (missing file, missing
requested column, coercion failure) is caught, logged with the advisory
and re-raised. -/
def read_dataframe (tables : CsvEnv) (file sep : String)
    (usecols : List String) (dtype : Option (List (String × PyType))) :
    Except PyErr Frame × List LogEntry :=
  let log0 := [LogEntry.debug
    ("Executing: read_dataframe(file=" ++ file ++ ", sep=" ++ sep ++ ")")]
  match tables file with
  | none =>
      let e := PyErr.fileNotFoundError file
      (.error e,
       log0 ++ [LogEntry.exceptionLog (pyStr e), LogEntry.errorLog _EXIT_MSG])
  | some f =>
      match read_csv f usecols dtype with
      | .ok df => (.ok df, log0)
      | .error e =>
          (.error e,
           log0 ++ [LogEntry.exceptionLog (pyStr e), LogEntry.errorLog _EXIT_MSG])

/-- Shell environment in which every command completes at once with exit
code 0, standard output with surrounding whitespace, and empty stderr. -/
def envOk : ShellEnv := fun _ => ExecOutcome.completed 0 ("  hi there\n") ""

/-- Shell environment in which every command exits with code 2 and the
message boom on standard error. -/
def envFail : ShellEnv := fun _ => ExecOutcome.completed 2 ("ignored") "boom"

/-- Shell environment in which every command exceeds the timeout. -/
def envSlow : ShellEnv := fun _ => ExecOutcome.timedOut

/-- Filesystem with a zero-byte text file, a two-byte text file and a
file whose single byte 255 is not valid UTF-8, with trivial symlink
resolution. -/
def fsText : FileSys :=
  ⟨[], [("/a/empty.txt", Node.file []), ("/a/notes.txt", Node.file [104, 105]),
        ("/a/bin.dat", Node.file [255])],
   id, [], []⟩

/-- Filesystem holding a PLINK triple whose base path itself ends in the
substring .bed, so the bed file is /x.bed.bed; all three files are
well-formed. -/
def fsPlink : FileSys :=
  ⟨[],
   [("/x.bed.bed", Node.file [108, 27, 1, 5]),
    ("/x.bed.bim", Node.file [65]),
    ("/x.bed.fam", Node.file [66])],
   id, [], []⟩

/-- Filesystem holding a .bed file whose first three bytes are not the
magic number. -/
def fsBadBed : FileSys :=
  ⟨[], [("/y.bed", Node.file [0, 1, 2]), ("/y.bim", Node.file [65]),
        ("/y.fam", Node.file [66])], id, [], []⟩

/-- Filesystem for the deletion examples: the tree below /d holds
a.txt, b.log, sub/c.txt and one special entry. -/
def fsTree : FileSys :=
  ⟨["/d", "/d/sub"],
   [("/d/a.txt", Node.file [1]), ("/d/b.log", Node.file [2]),
    ("/d/sub/c.txt", Node.file [3]), ("/d/spec", Node.special)],
   id, [], []⟩

/-- Table environment holding one delimited file with columns A, B, C
and two data rows. -/
def csvEnv : CsvEnv := fun p =>
  if p = "/d.csv" then
    some ⟨["A", "B", "C"], [["1", "x", "9"], ["2", "y", "8"]]⟩
  else none

/-- The log list ends with the given suffix of entries. -/
def logEndsWith (l suffix : List LogEntry) : Prop :=
  ∃ pre, l = pre ++ suffix

/-- Every list leads with itself followed by anything. -/
theorem leadsWith_self_append (pat suf : List Char) :
    leadsWith pat (pat ++ suf) = true := by
  induction pat with
  | nil => rfl
  | cons c cs ih => simp [leadsWith, ih]

/-- The empty needle occurs in every haystack. -/
theorem occursIn_nil (l : List Char) : occursIn [] l = true := by
  induction l with
  | nil => rfl
  | cons c rest ih => simp [occursIn, leadsWith, ih]

/-- Unfolding equation of occursIn on a non-empty haystack. -/
theorem occursIn_cons (pat : List Char) (c : Char) (rest : List Char) :
    occursIn pat (c :: rest) = (leadsWith pat (c :: rest) || occursIn pat rest) :=
  rfl

/-- A needle occurs in any haystack that embeds it between a front and a
back part. -/
theorem occursIn_sandwich (pre pat suf : List Char) :
    occursIn pat (pre ++ pat ++ suf) = true := by
  induction pre with
  | nil =>
      rw [List.nil_append]
      cases pat with
      | nil => simpa using occursIn_nil suf
      | cons c cs =>
          simp only [List.cons_append]
          rw [occursIn_cons, ← List.cons_append, leadsWith_self_append,
            Bool.true_or]
  | cons c pre ih =>
      simp only [List.cons_append]
      rw [occursIn_cons, ih, Bool.or_true]

/-- C4: for every shell command whose execution completes with exit code
0 within the timeout, run_shell_cmd returns the standard output of the
command with leading and trailing whitespace stripped. -/
theorem run_shell_cmd_ok_strips (env : ShellEnv) (cmd out err : String)
    (h : env cmd = ExecOutcome.completed 0 out err) :
    (run_shell_cmd env cmd).1 = Except.ok (pyStrip out) := by
  simp [run_shell_cmd, h]

/-- Witness for C4 at a concrete environment and command. -/
theorem run_shell_cmd_ok_strips_witness :
    (run_shell_cmd envOk ("ls")).1 = Except.ok ("hi there") := by
  have h := run_shell_cmd_ok_strips envOk ("ls") "  hi there\n" "" rfl
  rw [h]
  rfl

/-- C6: for every shell command whose execution completes with a
non-zero exit code, run_shell_cmd raises the CalledProcessError carrying
that exit code and the captured standard error, after logging the
standard error and then the fixed advisory; no output value is
returned. -/
theorem run_shell_cmd_nonzero_raises (env : ShellEnv) (cmd out err : String)
    (code : Int) (h : env cmd = ExecOutcome.completed code out err)
    (hc : code ≠ 0) :
    run_shell_cmd env cmd =
      (Except.error (PyErr.calledProcessError code err),
       [LogEntry.debug ("Executing: run_shell_cmd(cmd=" ++ cmd ++ ")"),
        LogEntry.exceptionLog err, LogEntry.errorLog _EXIT_MSG]) := by
  simp [run_shell_cmd, h, hc]

/-- Witness for C6 at a concrete environment and command. -/
theorem run_shell_cmd_nonzero_raises_witness :
    run_shell_cmd envFail ("ls") =
      (Except.error (PyErr.calledProcessError 2 ("boom")),
       [LogEntry.debug ("Executing: run_shell_cmd(cmd=ls)"),
        LogEntry.exceptionLog ("boom"), LogEntry.errorLog _EXIT_MSG]) := by
  have h := run_shell_cmd_nonzero_raises envFail ("ls") "ignored" "boom" 2 rfl
    (by decide)
  simpa using h

/-- C7: when execution of the command exceeds the timeout,
run_shell_cmd propagates a TimeoutExpired error, which is a different
error from every CalledProcessError, and its own handler neither catches
nor logs it: the log holds no exception record and no error record. -/
theorem run_shell_cmd_timeout_uncaught (env : ShellEnv) (cmd : String)
    (h : env cmd = ExecOutcome.timedOut) :
    (run_shell_cmd env cmd).1 = Except.error (PyErr.timeoutExpired cmd) ∧
    (∀ code err, PyErr.timeoutExpired cmd ≠ PyErr.calledProcessError code err) ∧
    ∀ l ∈ (run_shell_cmd env cmd).2,
      (∀ m, l ≠ LogEntry.exceptionLog m) ∧ ∀ m, l ≠ LogEntry.errorLog m := by
  refine ⟨by simp [run_shell_cmd, h], fun code err => by simp, ?_⟩
  intro l hl
  simp only [run_shell_cmd, h, List.mem_singleton] at hl
  subst hl
  exact ⟨fun m => by simp, fun m => by simp⟩

/-- Witness for C7 at a concrete environment and command. -/
theorem run_shell_cmd_timeout_uncaught_witness :
    (run_shell_cmd envSlow ("sleep 600")).1 =
      Except.error (PyErr.timeoutExpired ("sleep 600")) ∧
    (∀ code err,
      PyErr.timeoutExpired ("sleep 600") ≠ PyErr.calledProcessError code err) ∧
    ∀ l ∈ (run_shell_cmd envSlow ("sleep 600")).2,
      (∀ m, l ≠ LogEntry.exceptionLog m) ∧ ∀ m, l ≠ LogEntry.errorLog m :=
  run_shell_cmd_timeout_uncaught envSlow ("sleep 600") rfl

/-- C1 counterexample: /a/empty.txt exists, is readable and is zero
bytes long, yet validate_textfile does not fail: readline on an empty
file returns the empty string without raising, so the function returns
the canonical path. -/
theorem validate_textfile_accepts_empty_file :
    fsText.entries.lookup ("/a/empty.txt") = some (Node.file []) ∧
    (validate_textfile fsText ("/a/empty.txt")).1 = Except.ok ("/a/empty.txt") :=
  ⟨rfl, rfl⟩

/-- C1 amended: for every path that resolves to an existing, readable
(openable, UTF-8 decodable) regular file that is zero bytes long,
validate_textfile succeeds, not fails, returning the canonical absolute
path exactly as for non-empty readable files (readline returns the empty
string at end of file without raising); a missing file still fails with
FileNotFoundError, and an existing readable file with invalid UTF-8
contents fails with UnicodeDecodeError. -/
theorem validate_textfile_amended :
    (∀ (fs : FileSys) (arg : String) (contents : List Nat),
      fs.entries.lookup (fs.resolve arg) = some (Node.file contents) →
      fs.unreadable.contains (fs.resolve arg) = false →
      utf8Decodable contents = true →
      (validate_textfile fs arg).1 = Except.ok (fs.resolve arg)) ∧
    (∀ (fs : FileSys) (arg : String),
      fs.entries.lookup (fs.resolve arg) = none →
      fs.dirs.contains (fs.resolve arg) = false →
      (validate_textfile fs arg).1 =
        Except.error (PyErr.fileNotFoundError (fs.resolve arg))) ∧
    (∀ (fs : FileSys) (arg : String) (contents : List Nat),
      fs.entries.lookup (fs.resolve arg) = some (Node.file contents) →
      fs.unreadable.contains (fs.resolve arg) = false →
      utf8Decodable contents = false →
      (validate_textfile fs arg).1 =
        Except.error (PyErr.unicodeDecodeError (fs.resolve arg))) := by
  refine ⟨?_, ?_, ?_⟩
  · intro fs arg contents h hur hdec
    have hur2 : fs.resolve arg ∉ fs.unreadable := by simpa using hur
    simp [validate_textfile, FileSys.openBytes, h, hur2, hdec]
  · intro fs arg h hd
    have hd2 : fs.resolve arg ∉ fs.dirs := by simpa using hd
    simp [validate_textfile, FileSys.openBytes, h, hd2]
  · intro fs arg contents h hur hdec
    have hur2 : fs.resolve arg ∉ fs.unreadable := by simpa using hur
    simp [validate_textfile, FileSys.openBytes, h, hur2, hdec]

/-- Witness for the amended C1: the zero-byte file succeeds, a missing
path fails, and the file holding the single byte 255 fails to decode, in
the concrete filesystem. -/
theorem validate_textfile_amended_witness :
    (validate_textfile fsText ("/a/empty.txt")).1 = Except.ok ("/a/empty.txt") ∧
    (validate_textfile fsText ("/a/gone.txt")).1 =
      Except.error (PyErr.fileNotFoundError ("/a/gone.txt")) ∧
    (validate_textfile fsText ("/a/bin.dat")).1 =
      Except.error (PyErr.unicodeDecodeError ("/a/bin.dat")) :=
  ⟨validate_textfile_amended.1 fsText ("/a/empty.txt") [] rfl rfl rfl,
   validate_textfile_amended.2.1 fsText ("/a/gone.txt") rfl rfl,
   validate_textfile_amended.2.2 fsText ("/a/bin.dat") [255] rfl rfl rfl⟩

/-- C2 counterexample: for the base path /x.bed the bed file resolves to
/x.bed.bed, whose form with only the trailing extension stripped is
/x.bed; the function instead returns /x, because str.replace removes
every occurrence of the substring. -/
theorem validate_plinkfiles_strips_all_occurrences :
    fsPlink.resolve ("/x.bed" ++ ".bed") = "/x.bed.bed" ∧
    (validate_plinkfiles fsPlink ("/x.bed")).1 = Except.ok ("/x") ∧
    ("/x" : String) ≠ "/x.bed" :=
  ⟨rfl, rfl, by decide⟩

/-- C2 amended: when the resolved .bed file opens with first three bytes
exactly 108, 27, 1 and the .bim and .fam companions validate as text
files, validate_plinkfiles returns the canonical .bed path with every
occurrence of the substring .bed removed (which equals the resolved base
path whenever .bed occurs nowhere else in that path); when the first
three bytes are anything else it fails with an assertion error whose
message names the file. -/
theorem validate_plinkfiles_amended :
    (∀ (fs : FileSys) (arg : String) (bytes : List Nat),
      fs.openBytes (fs.resolve (arg ++ ".bed")) = Except.ok bytes →
      bytes.take 3 = bedMagicNum →
      (∃ v, (validate_textfile fs (arg ++ ".bim")).1 = Except.ok v) →
      (∃ v, (validate_textfile fs (arg ++ ".fam")).1 = Except.ok v) →
      (validate_plinkfiles fs arg).1 =
        Except.ok (pyReplace (fs.resolve (arg ++ ".bed")) ".bed" "")) ∧
    (∀ (fs : FileSys) (arg : String) (bytes : List Nat),
      fs.openBytes (fs.resolve (arg ++ ".bed")) = Except.ok bytes →
      bytes.take 3 ≠ bedMagicNum →
      (validate_plinkfiles fs arg).1 =
        Except.error (PyErr.assertionError
          ("File " ++ fs.resolve (arg ++ ".bed") ++
            " is not a PLINK .bed file.")) ∧
      strContains (fs.resolve (arg ++ ".bed"))
        ("File " ++ fs.resolve (arg ++ ".bed") ++ " is not a PLINK .bed file.")
        = true) := by
  constructor
  · intro fs arg bytes hopen hmagic hbim hfam
    obtain ⟨v1, h1⟩ := hbim
    obtain ⟨v2, h2⟩ := hfam
    rcases e1 : validate_textfile fs (arg ++ ".bim") with ⟨r1, l1⟩
    rcases e2 : validate_textfile fs (arg ++ ".fam") with ⟨r2, l2⟩
    rw [e1] at h1
    rw [e2] at h2
    simp only at h1 h2
    subst h1 h2
    simp [validate_plinkfiles, hopen, hmagic, e1, e2]
  · intro fs arg bytes hopen hmagic
    refine ⟨by simp [validate_plinkfiles, hopen, hmagic], ?_⟩
    have h := occursIn_sandwich ("File ").data (fs.resolve (arg ++ ".bed")).data (" is not a PLINK .bed file.").data
    simpa [strContains, String.data_append] using h

/-- Witness for the amended C2 at the concrete filesystems: the
well-formed triple below the base path /x.bed, and the bad-magic file
/y.bed. -/
theorem validate_plinkfiles_amended_witness :
    (validate_plinkfiles fsPlink ("/x.bed")).1 =
      Except.ok (pyReplace (fsPlink.resolve ("/x.bed" ++ ".bed")) ".bed" "") ∧
    ((validate_plinkfiles fsBadBed ("/y")).1 =
      Except.error (PyErr.assertionError
        ("File " ++ fsBadBed.resolve ("/y" ++ ".bed") ++
          " is not a PLINK .bed file.")) ∧
     strContains (fsBadBed.resolve ("/y" ++ ".bed"))
       ("File " ++ fsBadBed.resolve ("/y" ++ ".bed") ++
         " is not a PLINK .bed file.") = true) :=
  ⟨validate_plinkfiles_amended.1 fsPlink ("/x.bed") [108, 27, 1, 5] rfl rfl
      ⟨_, rfl⟩ ⟨_, rfl⟩,
   validate_plinkfiles_amended.2 fsBadBed ("/y") [0, 1, 2] rfl (by decide)⟩

/-- C9: on a path that is not an existing directory, delete_files_within
returns normally, removes nothing, leaves the filesystem unchanged and
only logs its debug trace. -/
theorem delete_files_within_missing_root (fs : FileSys) (d : String)
    (pat : Option String) (h : fs.dirs.contains d = false) :
    delete_files_within fs d pat =
      ⟨Except.ok (),
       [LogEntry.debug ("Executing: delete_files_within(path=" ++ d ++
         ", pattern=" ++ patRepr pat ++ ")")],
       fs, []⟩ := by
  obtain ⟨dirs, entries, resolve, locked, unreadable⟩ := fs
  have hw : FileSys.walk ⟨dirs, entries, resolve, locked, unreadable⟩ d = [] := by
    simp only [FileSys.walk]
    simp at h
    simp [h]
  simp [delete_files_within, hw, removeLoop, List.filter_eq_self]

/-- Witness for C9 at a concrete filesystem and a missing root. -/
theorem delete_files_within_missing_root_witness :
    delete_files_within fsTree ("/nope") none =
      ⟨Except.ok (),
       [LogEntry.debug ("Executing: delete_files_within(path=" ++ "/nope" ++
         ", pattern=" ++ patRepr none ++ ")")],
       fsTree, []⟩ :=
  delete_files_within_missing_root fsTree ("/nope") none rfl

/-- Deleting with the empty pattern selects exactly what deleting with
no pattern selects, file by file. -/
theorem shouldDelete_empty_pattern (p : String) (n : Node) :
    shouldDelete (some ("")) p n = shouldDelete none p n := by
  simp [shouldDelete, strContains, occursIn_nil]

/-- The deletion loop behaves identically under the empty pattern and
under no pattern. -/
theorem removeLoop_empty_pattern (locked : List String)
    (l : List (String × Node)) :
    removeLoop locked (some ("")) l = removeLoop locked none l := by
  induction l with
  | nil => rfl
  | cons e rest ih =>
      obtain ⟨p, n⟩ := e
      rw [removeLoop, removeLoop, shouldDelete_empty_pattern, ih]

/-- C10: calling delete_files_within with the empty string as the
pattern removes exactly the same files as calling it with no pattern,
with the same resulting filesystem and the same outcome. -/
theorem delete_files_within_empty_pattern (fs : FileSys) (d : String) :
    (delete_files_within fs d (some (""))).removed =
      (delete_files_within fs d none).removed ∧
    (delete_files_within fs d (some (""))).fs =
      (delete_files_within fs d none).fs ∧
    (delete_files_within fs d (some (""))).result =
      (delete_files_within fs d none).result := by
  rcases hr : removeLoop fs.locked none (fs.walk d) with ⟨removed, err⟩
  cases err <;>
    simp [delete_files_within, removeLoop_empty_pattern, hr]

/-- When the deletion loop finishes without an exception, the removed
paths are exactly those appearing in the walked list with a node the
pattern selects. -/
theorem removeLoop_ok_mem (locked : List String) (pat : Option String)
    (l : List (String × Node)) (removed : List String)
    (h : removeLoop locked pat l = (removed, none)) (p : String) :
    p ∈ removed ↔ ∃ n, (p, n) ∈ l ∧ shouldDelete pat p n = true := by
  induction l generalizing removed with
  | nil =>
      rw [removeLoop] at h
      injection h with h1 h2
      simp [← h1]
  | cons e rest ih =>
      obtain ⟨q, m⟩ := e
      rcases hr : removeLoop locked pat rest with ⟨r2, e2⟩
      cases hd : shouldDelete pat q m with
      | false =>
          rw [removeLoop] at h
          simp only [hd, Bool.false_eq_true, if_false] at h
          rw [ih removed h]
          constructor
          · rintro ⟨n, hn, hs⟩
            exact ⟨n, List.mem_cons_of_mem _ hn, hs⟩
          · rintro ⟨n, hn, hs⟩
            rcases List.mem_cons.mp hn with heq | hmem
            · injection heq with hp hm
              subst hp
              subst hm
              rw [hd] at hs
              cases hs
            · exact ⟨n, hmem, hs⟩
      | true =>
          cases hk : locked.contains q with
          | true =>
              have hk2 : q ∈ locked := by simpa using hk
              rw [removeLoop] at h
              simp [hd, hk2] at h
          | false =>
              have hk2 : q ∉ locked := by simpa using hk
              rw [removeLoop] at h
              simp only [hd, if_true, hr, hk, Bool.false_eq_true, if_false] at h
              injection h with h1 h2
              subst h2
              rw [← h1]
              constructor
              · intro hp
                rcases List.mem_cons.mp hp with heq | hmem
                · subst heq
                  exact ⟨m, List.mem_cons_self _ _, hd⟩
                · obtain ⟨n, hn, hs⟩ := (ih r2 (by rw [hr])).mp hmem
                  exact ⟨n, List.mem_cons_of_mem _ hn, hs⟩
              · rintro ⟨n, hn, hs⟩
                rcases List.mem_cons.mp hn with heq | hmem
                · injection heq with hp hm
                  subst hp
                  exact List.mem_cons_self _ _
                · exact List.mem_cons_of_mem _
                    ((ih r2 (by rw [hr])).mpr ⟨n, hmem, hs⟩)

/-- In an entry list with no repeated path, a path determines its
node. -/
theorem keys_nodup_unique {l : List (String × Node)}
    (hn : (l.map Prod.fst).Nodup) {p : String} {a b : Node}
    (ha : (p, a) ∈ l) (hb : (p, b) ∈ l) : a = b := by
  induction l with
  | nil => cases ha
  | cons e rest ih =>
      obtain ⟨q, m⟩ := e
      rw [List.map_cons, List.nodup_cons] at hn
      rcases List.mem_cons.mp ha with h1 | h1 <;>
        rcases List.mem_cons.mp hb with h2 | h2
      · injection h1 with hp1 hm1
        injection h2 with hp2 hm2
        rw [hm1, hm2]
      · injection h1 with hp1 hm1
        subst hp1
        exact absurd (List.mem_map_of_mem Prod.fst h2) hn.1
      · injection h2 with hp2 hm2
        subst hp2
        exact absurd (List.mem_map_of_mem Prod.fst h1) hn.1
      · exact ih hn.2 h1 h2

/-- Every walked entry is an entry of the filesystem. -/
theorem walk_subset (fs : FileSys) (d : String) {e : String × Node}
    (h : e ∈ fs.walk d) : e ∈ fs.entries := by
  rw [FileSys.walk] at h
  split at h
  · exact (List.mem_filter.mp h).1
  · cases h

/-- When delete_files_within returns normally, an entry of the
filesystem disappears exactly when the walk reaches it and the pattern
selects it. -/
theorem delete_ok_characterization (fs : FileSys) (d : String)
    (pat : Option String) (hn : (fs.entries.map Prod.fst).Nodup)
    (hok : (delete_files_within fs d pat).result = Except.ok ())
    (p : String) (n : Node) (hmem : (p, n) ∈ fs.entries) :
    (p, n) ∉ (delete_files_within fs d pat).fs.entries ↔
      (p, n) ∈ fs.walk d ∧ shouldDelete pat p n = true := by
  rcases hr : removeLoop fs.locked pat (fs.walk d) with ⟨removed, err⟩
  cases err with
  | some e => simp [delete_files_within, hr] at hok
  | none =>
      have hent : (delete_files_within fs d pat).fs.entries =
          fs.entries.filter (fun e => !(removed.contains e.1)) := by
        simp [delete_files_within, hr]
      rw [hent]
      have hmm := removeLoop_ok_mem fs.locked pat (fs.walk d) removed hr p
      constructor
      · intro hout
        have : ¬((p, n) ∈ fs.entries ∧ (!(removed.contains p)) = true) := by
          intro hc
          exact hout (List.mem_filter.mpr ⟨hc.1, hc.2⟩)
        have hpin : p ∈ removed := by
          by_contra hno
          exact this ⟨hmem, by simpa using hno⟩
        obtain ⟨n2, hn2, hs2⟩ := hmm.mp hpin
        have : n2 = n := keys_nodup_unique hn (walk_subset fs d hn2) hmem
        exact ⟨this ▸ hn2, this ▸ hs2⟩
      · rintro ⟨hw, hs⟩ hin
        have hkeep := (List.mem_filter.mp hin).2
        have hpin : p ∈ removed := hmm.mpr ⟨n, hw, hs⟩
        simp [hpin] at hkeep

/-- C5: when deletion completes normally, delete_files_within with a
pattern removes exactly the regular files whose full joined path under
the walked root contains the pattern as a substring, leaving every other
entry in place; with no pattern it removes exactly the regular files
under the root; entries that are not regular files are never removed. -/
theorem delete_files_within_exact (fs : FileSys) (d pat : String)
    (hn : (fs.entries.map Prod.fst).Nodup)
    (hok1 : (delete_files_within fs d (some pat)).result = Except.ok ())
    (hok2 : (delete_files_within fs d none).result = Except.ok ()) :
    (∀ p n, (p, n) ∈ fs.entries →
      ((p, n) ∉ (delete_files_within fs d (some pat)).fs.entries ↔
        (p, n) ∈ fs.walk d ∧ n.isRegular = true ∧ strContains pat p = true)) ∧
    (∀ p n, (p, n) ∈ fs.entries →
      ((p, n) ∉ (delete_files_within fs d none).fs.entries ↔
        (p, n) ∈ fs.walk d ∧ n.isRegular = true)) := by
  constructor
  · intro p n hmem
    rw [delete_ok_characterization fs d (some pat) hn hok1 p n hmem]
    simp [shouldDelete, and_assoc]
  · intro p n hmem
    rw [delete_ok_characterization fs d none hn hok2 p n hmem]
    simp [shouldDelete]

/-- Witness for C5 at the concrete tree: with pattern .txt the file
/d/a.txt is removed while /d/b.log survives, and the special entry
/d/spec survives even with no pattern. -/
theorem delete_files_within_exact_witness :
    ((("/d/a.txt", Node.file [1]) ∉
        (delete_files_within fsTree ("/d") (some (".txt"))).fs.entries ↔
      ("/d/a.txt", Node.file [1]) ∈ fsTree.walk ("/d") ∧
        (Node.file [1]).isRegular = true ∧
        strContains (".txt") "/d/a.txt" = true) ∧
     (("/d/spec", Node.special) ∉
        (delete_files_within fsTree ("/d") none).fs.entries ↔
      ("/d/spec", Node.special) ∈ fsTree.walk ("/d") ∧
        Node.special.isRegular = true)) := by
  have h := delete_files_within_exact fsTree ("/d") ".txt" (by decide) rfl rfl
  exact ⟨h.1 ("/d/a.txt") (Node.file [1]) (by decide),
         h.2 ("/d/spec") Node.special (by decide)⟩

/-- A list that is some front part followed by the suffix ends with that
suffix. -/
theorem logEndsWith_self (suffix : List LogEntry) : logEndsWith suffix suffix :=
  ⟨[], rfl⟩

/-- Prepending entries preserves ending with a suffix. -/
theorem logEndsWith_append_right (a : List LogEntry) {l suffix : List LogEntry}
    (h : logEndsWith l suffix) : logEndsWith (a ++ l) suffix := by
  obtain ⟨pre, hp⟩ := h
  exact ⟨a ++ pre, by rw [hp, List.append_assoc]⟩

/-- C3 counterexample: the command below fails inside the body of
run_shell_cmd (its execution times out and the error propagates to the
caller), yet the function logs neither the error nor the fixed advisory:
its log holds only the entry debug trace. -/
theorem run_shell_cmd_timeout_not_logged :
    (run_shell_cmd envSlow ("sleep 999")).1 =
      Except.error (PyErr.timeoutExpired ("sleep 999")) ∧
    (run_shell_cmd envSlow ("sleep 999")).2 =
      [LogEntry.debug ("Executing: run_shell_cmd(cmd=sleep 999)")] :=
  ⟨rfl, rfl⟩

/-- C3 amended: every failure a function of the module catches is logged
(the error, then the fixed advisory) and re-raised unchanged, so the
caller sees the original error; the one exception is the timeout of the
shell executor, which no handler catches, so it propagates with only the
debug trace logged. -/
theorem error_logging_policy :
    (∀ (env : ShellEnv) (cmd : String) (e : PyErr),
      (run_shell_cmd env cmd).1 = Except.error e →
      (∃ code err, e = PyErr.calledProcessError code err ∧
        logEndsWith (run_shell_cmd env cmd).2
          [LogEntry.exceptionLog err, LogEntry.errorLog _EXIT_MSG]) ∨
      (e = PyErr.timeoutExpired cmd ∧
        (run_shell_cmd env cmd).2 =
          [LogEntry.debug ("Executing: run_shell_cmd(cmd=" ++ cmd ++ ")")])) ∧
    (∀ (fs : FileSys) (d : String) (pat : Option String) (e : PyErr),
      (delete_files_within fs d pat).result = Except.error e →
      logEndsWith (delete_files_within fs d pat).log
        [LogEntry.exceptionLog (pyStr e), LogEntry.errorLog _EXIT_MSG]) ∧
    (∀ (fs : FileSys) (arg : String) (e : PyErr),
      (validate_textfile fs arg).1 = Except.error e →
      logEndsWith (validate_textfile fs arg).2
        [LogEntry.exceptionLog (pyStr e), LogEntry.errorLog _EXIT_MSG]) ∧
    (∀ (fs : FileSys) (arg : String) (e : PyErr),
      (validate_plinkfiles fs arg).1 = Except.error e →
      logEndsWith (validate_plinkfiles fs arg).2
        [LogEntry.exceptionLog (pyStr e), LogEntry.errorLog _EXIT_MSG]) ∧
    (∀ (tables : CsvEnv) (file sep : String) (usecols : List String)
        (dtype : Option (List (String × PyType))) (e : PyErr),
      (read_dataframe tables file sep usecols dtype).1 = Except.error e →
      logEndsWith (read_dataframe tables file sep usecols dtype).2
        [LogEntry.exceptionLog (pyStr e), LogEntry.errorLog _EXIT_MSG]) := by
  refine ⟨?_, ?_, ?_, ?_, ?_⟩
  · intro env cmd e h
    cases hE : env cmd with
    | completed code out err =>
        by_cases hc : code = 0
        · simp [run_shell_cmd, hE, hc] at h
        · simp only [run_shell_cmd, hE, if_neg hc] at h ⊢
          injection h with h1
          left
          refine ⟨code, err, h1.symm, ?_⟩
          exact logEndsWith_append_right _ (logEndsWith_self _)
    | timedOut =>
        simp only [run_shell_cmd, hE] at h
        injection h with h1
        right
        exact ⟨h1.symm, by simp [run_shell_cmd, hE]⟩
  · intro fs d pat e h
    rcases hr : removeLoop fs.locked pat (fs.walk d) with ⟨removed, err⟩
    cases err with
    | none => simp [delete_files_within, hr] at h
    | some e0 =>
        have he : e0 = e := by
          simpa [delete_files_within, hr] using h
        subst he
        simp only [delete_files_within, hr]
        exact logEndsWith_append_right _ (logEndsWith_self _)
  · intro fs arg e h
    cases ho : fs.openBytes (fs.resolve arg) with
    | ok contents =>
        cases hdec : utf8Decodable contents with
        | true => simp [validate_textfile, ho, hdec] at h
        | false =>
            have he : PyErr.unicodeDecodeError (fs.resolve arg) = e := by
              simpa [validate_textfile, ho, hdec] using h
            subst he
            simp only [validate_textfile, ho, hdec, Bool.false_eq_true,
              if_false]
            exact logEndsWith_append_right _ (logEndsWith_self _)
    | error e0 =>
        have he : e0 = e := by
          simpa [validate_textfile, ho] using h
        subst he
        simp only [validate_textfile, ho]
        exact logEndsWith_append_right _ (logEndsWith_self _)
  · intro fs arg e h
    cases ho : fs.openBytes (fs.resolve (arg ++ ".bed")) with
    | error e0 =>
        have he : e0 = e := by
          simpa [validate_plinkfiles, ho] using h
        subst he
        simp only [validate_plinkfiles, ho]
        exact logEndsWith_append_right _ (logEndsWith_self _)
    | ok bytes =>
        by_cases hm : bytes.take 3 = bedMagicNum
        · rcases h1 : validate_textfile fs (arg ++ ".bim") with ⟨r1, l1⟩
          cases r1 with
          | error e1 =>
              have he : e1 = e := by
                simpa [validate_plinkfiles, ho, hm, h1] using h
              subst he
              simp only [validate_plinkfiles, ho, if_pos hm, h1]
              rw [List.append_assoc, List.append_assoc]
              exact logEndsWith_append_right _ (logEndsWith_append_right _
                (logEndsWith_append_right _ (logEndsWith_self _)))
          | ok v1 =>
              rcases h2 : validate_textfile fs (arg ++ ".fam") with ⟨r2, l2⟩
              cases r2 with
              | error e2 =>
                  have he : e2 = e := by
                    simpa [validate_plinkfiles, ho, hm, h1, h2] using h
                  subst he
                  simp only [validate_plinkfiles, ho, if_pos hm, h1, h2]
                  rw [List.append_assoc, List.append_assoc, List.append_assoc]
                  exact logEndsWith_append_right _ (logEndsWith_append_right _
                    (logEndsWith_append_right _ (logEndsWith_append_right _
                      (logEndsWith_self _))))
              | ok v2 => simp [validate_plinkfiles, ho, hm, h1, h2] at h
        · have he : PyErr.assertionError
              ("File " ++ fs.resolve (arg ++ ".bed") ++
                " is not a PLINK .bed file.") = e := by
            simpa [validate_plinkfiles, ho, hm] using h
          subst he
          simp only [validate_plinkfiles, ho, if_neg hm]
          exact logEndsWith_append_right _ (logEndsWith_self _)
  · intro tables file sep usecols dtype e h
    cases ht : tables file with
    | none =>
        have he : PyErr.fileNotFoundError file = e := by
          simpa [read_dataframe, ht] using h
        subst he
        simp only [read_dataframe, ht]
        exact logEndsWith_append_right _ (logEndsWith_self _)
    | some f =>
        cases hc : read_csv f usecols dtype with
        | ok df => simp [read_dataframe, ht, hc] at h
        | error e0 =>
            have he : e0 = e := by
              simpa [read_dataframe, ht, hc] using h
            subst he
            simp only [read_dataframe, ht, hc]
            exact logEndsWith_append_right _ (logEndsWith_self _)

/-- Witness for the amended C3: a caught failure of the text validator
at a concrete missing file is logged with the error and the advisory. -/
theorem error_logging_policy_witness :
    logEndsWith (validate_textfile fsText ("/a/zzz.txt")).2
      [LogEntry.exceptionLog (pyStr (PyErr.fileNotFoundError ("/a/zzz.txt"))),
       LogEntry.errorLog _EXIT_MSG] :=
  error_logging_policy.2.2.1 fsText ("/a/zzz.txt")
    (PyErr.fileNotFoundError ("/a/zzz.txt")) rfl

/-- Every element of a successful effectful map comes from applying the
function successfully to some element of the input list. -/
theorem mapE_ok_mem {α β ε : Type} (g : α → Except ε β) :
    ∀ (l : List α) (out : List β), mapE g l = Except.ok out →
      ∀ b ∈ out, ∃ a ∈ l, g a = Except.ok b := by
  intro l
  induction l with
  | nil =>
      intro out h b hb
      rw [mapE] at h
      injection h with h1
      subst h1
      cases hb
  | cons a l ih =>
      intro out h b hb
      rw [mapE] at h
      cases hg : g a with
      | error e => rw [hg] at h; cases h
      | ok b0 =>
          rw [hg] at h
          cases hm : mapE g l with
          | error e => rw [hm] at h; cases h
          | ok bs =>
              rw [hm] at h
              injection h with h1
              subst h1
              rcases List.mem_cons.mp hb with hbeq | hbm
              · subst hbeq
                exact ⟨a, List.mem_cons_self _ _, hg⟩
              · obtain ⟨a2, ha2, hga2⟩ := ih bs hm b hbm
                exact ⟨a2, List.mem_cons_of_mem _ ha2, hga2⟩

/-- A successful coercion produces a value of the requested type. -/
theorem coerce_hasType (t : PyType) (cell : String) (v : Value)
    (h : coerce t cell = Except.ok v) : v.hasType t = true := by
  cases t with
  | pystr =>
      simp only [coerce] at h
      injection h with h1
      subst h1
      rfl
  | pyint =>
      simp only [coerce] at h
      cases hi : pyInt cell with
      | none => rw [hi] at h; cases h
      | some n =>
          rw [hi] at h
          injection h with h1
          subst h1
          rfl

/-- A successfully built column keeps the requested name. -/
theorem buildCol_fst (f : CsvFile) (dtype : Option (List (String × PyType)))
    (c : String) (b : String × List Value)
    (h : buildCol f dtype c = Except.ok b) : b.1 = c := by
  simp only [buildCol] at h
  cases hrows : mapE
      (fun r => coerce (colType dtype c) (r.getD (indexIn c f.header) ""))
      f.rows with
  | error e => rw [hrows] at h; cases h
  | ok vs =>
      rw [hrows] at h
      injection h with h1
      rw [← h1]

/-- The names of a successfully loaded frame are exactly the column list
the builder ran over, in order. -/
theorem mapE_buildCol_map_fst (f : CsvFile)
    (dtype : Option (List (String × PyType))) :
    ∀ (cols : List String) (df : Frame),
      mapE (buildCol f dtype) cols = Except.ok df →
      df.map Prod.fst = cols := by
  intro cols
  induction cols with
  | nil =>
      intro df h
      rw [mapE] at h
      injection h with h1
      subst h1
      rfl
  | cons c cols ih =>
      intro df h
      rw [mapE] at h
      cases hg : buildCol f dtype c with
      | error e => rw [hg] at h; cases h
      | ok b =>
          rw [hg] at h
          cases hm : mapE (buildCol f dtype) cols with
          | error e => rw [hm] at h; cases h
          | ok bs =>
              rw [hm] at h
              injection h with h1
              subst h1
              simp [buildCol_fst f dtype c b hg, ih bs hm]

/-- C8: the loader fails when a requested column is absent from the
header of the file; on success the returned table is restricted to
exactly the requested columns (its column names are the requested ones,
in file order, nothing more and nothing less); and every value of a
column named in the dtype mapping has the mapped type. -/
theorem read_dataframe_columns :
    (∀ (tables : CsvEnv) (file sep : String) (usecols : List String)
        (dtype : Option (List (String × PyType))) (f : CsvFile) (c : String),
      tables file = some f → c ∈ usecols → f.header.contains c = false →
      (read_dataframe tables file sep usecols dtype).1 =
        Except.error (PyErr.valueError
          "Usecols do not match columns, columns expected but not found")) ∧
    (∀ (tables : CsvEnv) (file sep : String) (usecols : List String)
        (dtype : Option (List (String × PyType))) (f : CsvFile) (df : Frame),
      tables file = some f →
      (read_dataframe tables file sep usecols dtype).1 = Except.ok df →
      df.map Prod.fst = f.header.filter (fun c => usecols.contains c) ∧
      (∀ c vs, (c, vs) ∈ df → c ∈ usecols) ∧
      (∀ c ∈ usecols, ∃ vs, (c, vs) ∈ df)) ∧
    (∀ (tables : CsvEnv) (file sep : String) (usecols : List String)
        (m : List (String × PyType)) (c : String) (t : PyType)
        (df : Frame) (vs : List Value),
      (read_dataframe tables file sep usecols (some m)).1 = Except.ok df →
      m.lookup c = some t → (c, vs) ∈ df →
      ∀ v ∈ vs, v.hasType t = true) := by
  refine ⟨?_, ?_, ?_⟩
  · intro tables file sep usecols dtype f c ht hc hmiss
    have hcne : c ∉ f.header := by simpa using hmiss
    have hnot : ¬ ∀ x ∈ usecols, x ∈ f.header := fun hA => hcne (hA c hc)
    simp [read_dataframe, ht, read_csv, hnot]
  · intro tables file sep usecols dtype f df ht h
    cases hc : read_csv f usecols dtype with
    | error e => simp [read_dataframe, ht, hc] at h
    | ok df0 =>
        have hdf : df0 = df := by
          simpa [read_dataframe, ht, hc] using h
        subst hdf
        rcases hA : usecols.all (fun c => f.header.contains c) with _ | _
        · simp only [read_csv, hA, Bool.false_eq_true, if_false] at hc
          cases hc
        · simp only [read_csv, hA, if_true] at hc
          have hmap := mapE_buildCol_map_fst f dtype _ df0 hc
          refine ⟨hmap, ?_, ?_⟩
          · intro c vs hmem
            have hin : c ∈ df0.map Prod.fst :=
              List.mem_map_of_mem Prod.fst hmem
            rw [hmap] at hin
            have := List.mem_filter.mp hin
            simpa using this.2
          · intro c hcu
            have hch : c ∈ f.header := by
              rw [List.all_eq_true] at hA
              simpa using hA c hcu
            have hin : c ∈ f.header.filter (fun c => usecols.contains c) :=
              List.mem_filter.mpr ⟨hch, by simpa using hcu⟩
            rw [← hmap] at hin
            obtain ⟨⟨c2, vs⟩, hp, hfst⟩ := List.mem_map.mp hin
            simp only at hfst
            subst hfst
            exact ⟨vs, hp⟩
  · intro tables file sep usecols m c t df vs h hlook hmem v hv
    cases ht : tables file with
    | none => simp [read_dataframe, ht] at h
    | some f =>
        cases hc : read_csv f usecols (some m) with
        | error e => simp [read_dataframe, ht, hc] at h
        | ok df0 =>
            have hdf : df0 = df := by
              simpa [read_dataframe, ht, hc] using h
            subst hdf
            rcases hA : usecols.all (fun c => f.header.contains c) with _ | _
            · simp only [read_csv, hA, Bool.false_eq_true, if_false] at hc
              cases hc
            · simp only [read_csv, hA, if_true] at hc
              obtain ⟨c2, hc2, hg⟩ := mapE_ok_mem _ _ df0 hc (c, vs) hmem
              simp only [buildCol] at hg
              cases hrows : mapE
                  (fun r => coerce (colType (some m) c2)
                    (r.getD (indexIn c2 f.header) "")) f.rows with
              | error e => rw [hrows] at hg; cases hg
              | ok vs2 =>
                  rw [hrows] at hg
                  injection hg with hg1
                  have hgc : c2 = c := congrArg Prod.fst hg1
                  have hgv : vs2 = vs := congrArg Prod.snd hg1
                  have htc : colType (some m) c2 = t := by
                    rw [hgc]
                    simp [colType, hlook]
                  rw [htc] at hrows
                  have hv2 : v ∈ vs2 := by rw [hgv]; exact hv
                  obtain ⟨r, hr, hcoerce⟩ := mapE_ok_mem _ _ vs2 hrows v hv2
                  exact coerce_hasType t _ v hcoerce

/-- Witness for C8 at the concrete table environment: requesting the
missing column D fails; requesting columns A and B with an integer dtype
for A yields a frame whose column names are exactly A and B, and every
loaded value of column A is an integer. -/
theorem read_dataframe_columns_witness :
    (read_dataframe csvEnv ("/d.csv") "," ["A", "D"] none).1 =
      Except.error (PyErr.valueError
        "Usecols do not match columns, columns expected but not found") ∧
    ([("A", [Value.vint 1, Value.vint 2]),
      ("B", [Value.vstr ("x"), Value.vstr ("y")])] : Frame).map Prod.fst =
      ["A", "B"] ∧
    ∀ v ∈ [Value.vint 1, Value.vint 2], v.hasType PyType.pyint = true := by
  refine ⟨?_, ?_, ?_⟩
  · exact read_dataframe_columns.1 csvEnv ("/d.csv") ","
      ["A", "D"] none ⟨["A", "B", "C"], [["1", "x", "9"], ["2", "y", "8"]]⟩
      ("D") rfl (by decide) rfl
  · exact (read_dataframe_columns.2.1 csvEnv ("/d.csv") "," ["A", "B"]
      (some [("A", PyType.pyint)])
      ⟨["A", "B", "C"], [["1", "x", "9"], ["2", "y", "8"]]⟩
      [("A", [Value.vint 1, Value.vint 2]),
       ("B", [Value.vstr ("x"), Value.vstr ("y")])] rfl rfl).1
  · exact read_dataframe_columns.2.2 csvEnv ("/d.csv") "," ["A", "B"]
      [("A", PyType.pyint)] ("A") PyType.pyint
      [("A", [Value.vint 1, Value.vint 2]),
       ("B", [Value.vstr ("x"), Value.vstr ("y")])]
      [Value.vint 1, Value.vint 2] rfl rfl (by decide)
